import Mathlib

/-!
Shallow embedding of the asynchronous-delivery core of the
mb-url-shortener repository: the multi-client WebSocket registry
(`MultiClientManager`), the delivery ledger and retry sweep
(`MessageHandler`, `RetryHandler.processPendingMessages`), the delivery
façade (`WebSocketManagerService.sendShortenedUrlToSession`), the
inbound-frame handler (`ConnectionHandler`), and the unique-code
generator (`UrlShortenerService`).

Timestamps are epoch milliseconds as `Nat`; the JS `Date` subtraction
`now.getTime() - last.getTime()` is computed in `Int`.  Transport
behaviour (`websocket.send` throwing) is modelled by a per-client
oracle field `sendThrows`; the socket's `readyState` is a field of the
client record, as the registry only ever reads it.
-/

namespace MB

/-- WebSocket readyState values (`CONNECTING → OPEN → CLOSING → CLOSED`). -/
inductive ReadyState where
  | CONNECTING
  | OPEN
  | CLOSING
  | CLOSED
deriving DecidableEq, Repr

/-- `ClientConnection` from `websocket.types.ts`: id, websocket handle
(modelled by its `readyState` and a `sendThrows` oracle saying whether a
transport-level `send` on it throws), `connectedAt`, `lastActivity`. -/
structure ClientConnection where
  id : String
  readyState : ReadyState
  sendThrows : Bool
  connectedAt : Nat
  lastActivity : Nat
deriving DecidableEq, Repr

/-- `MultiClientManager`'s state: the `clients` registry object,
as a list of connections in insertion order (JS object values order). -/
structure MultiClientManager where
  clients : List ClientConnection
deriving DecidableEq, Repr

namespace MultiClientManager

/-- `MultiClientManager.removeClient`: deletes the entry for `clientId`
(a no-op when absent). -/
def removeClient (m : MultiClientManager) (clientId : String) : MultiClientManager :=
  ⟨m.clients.filter (fun c => c.id ≠ clientId)⟩

/-- `MultiClientManager.getClient`: `this.clients[clientId] || null`. -/
def getClient (m : MultiClientManager) (clientId : String) : Option ClientConnection :=
  m.clients.find? (fun c => c.id = clientId)

/-- `MultiClientManager.getAllClients`: `Object.values(this.clients)`. -/
def getAllClients (m : MultiClientManager) : List ClientConnection :=
  m.clients

/-- `MultiClientManager.getClientCount`: `Object.keys(this.clients).length`. -/
def getClientCount (m : MultiClientManager) : Nat :=
  m.clients.length

/-- `MultiClientManager.updateClientActivity`: sets `lastActivity` to now
when the client is present, otherwise does nothing. -/
def updateClientActivity (m : MultiClientManager) (clientId : String) (now : Nat) :
    MultiClientManager :=
  ⟨m.clients.map (fun c => if c.id = clientId then { c with lastActivity := now } else c)⟩

/-- `MultiClientManager.hasClient`:
`!!(client && client.websocket.readyState === client.websocket.OPEN)`. -/
def hasClient (m : MultiClientManager) (clientId : String) : Bool :=
  match m.getClient clientId with
  | some c => c.readyState = ReadyState.OPEN
  | none => false

/-- `MultiClientManager.sendToClient`: returns `false` for an absent or
non-OPEN client (registry unchanged); otherwise attempts the transport
send — on a throw it removes the client and returns `false`, on success
it refreshes the client's activity and returns `true`. -/
def sendToClient (m : MultiClientManager) (clientId : String) (now : Nat) :
    Bool × MultiClientManager :=
  match m.getClient clientId with
  | none => (false, m)
  | some c =>
    if c.readyState ≠ ReadyState.OPEN then (false, m)
    else if c.sendThrows then (false, m.removeClient clientId)
    else (true, m.updateClientActivity clientId now)

end MultiClientManager

/-- `PendingMessage` from `websocket.types.ts`: message id, target
client id, payload (`shortenedURL`), attempt count, last-attempt time. -/
structure PendingMessage where
  id : String
  clientId : String
  shortenedURL : String
  attempts : Nat
  lastAttempt : Nat
deriving DecidableEq, Repr

/-- `RetryConfig` from `websocket.types.ts`. -/
structure RetryConfig where
  maxAttempts : Nat
  retryDelay : Nat
  checkInterval : Nat
deriving DecidableEq, Repr

/-- `DEFAULT_RETRY_CONFIG`: 5 attempts, 30 s retry delay, 5 s sweep interval. -/
def DEFAULT_RETRY_CONFIG : RetryConfig :=
  { maxAttempts := 5, retryDelay := 30000, checkInterval := 5000 }

/-- `MessageHandler.handleAcknowledgment`: removes every pending entry
whose id matches; the acknowledging client id is only logged. -/
def handleAcknowledgment (pending : List PendingMessage)
    (messageId : String) (_clientId : String) : List PendingMessage :=
  pending.filter (fun msg => msg.id ≠ messageId)

/-- One sweep, `RetryHandler.processPendingMessages`: filters the
pending list in order, threading the registry state (the registry is
mutated by `sendToClient` during the sweep).  Returns the updated
registry, the retained entries, and the list of attempted transport
sends as `(clientId, messageId)` pairs.  Per entry, in source order:
entries at or past `maxAttempts` are dropped; entries not yet due
(`now - lastAttempt < retryDelay`) are kept unchanged; entries whose
client fails `hasClient` are dropped; otherwise a resend is attempted —
on success the entry is kept with `attempts + 1` and `lastAttempt = now`,
on failure it is dropped. -/
def processPendingMessages (cfg : RetryConfig) (now : Nat)
    (m : MultiClientManager) :
    List PendingMessage → MultiClientManager × List PendingMessage × List (String × String)
  | [] => (m, [], [])
  | msg :: rest =>
    if cfg.maxAttempts ≤ msg.attempts then
      processPendingMessages cfg now m rest
    else if (now : Int) - (msg.lastAttempt : Int) < (cfg.retryDelay : Int) then
      let r := processPendingMessages cfg now m rest
      (r.1, msg :: r.2.1, r.2.2)
    else if ¬ m.hasClient msg.clientId then
      processPendingMessages cfg now m rest
    else
      let s := m.sendToClient msg.clientId now
      let r := processPendingMessages cfg now s.2 rest
      if s.1 then
        (r.1, { msg with attempts := msg.attempts + 1, lastAttempt := now } :: r.2.1,
          (msg.clientId, msg.id) :: r.2.2)
      else
        (r.1, r.2.1, (msg.clientId, msg.id) :: r.2.2)

/-- `WebSocketManagerService`'s mutable state: the client registry (via
`ConnectionHandler`'s `MultiClientManager`), the `MessageHandler`'s
pending ledger, and the `clientSessionMap` (session id → client id). -/
structure WSState where
  manager : MultiClientManager
  pending : List PendingMessage
  sessionMap : List (String × String)
deriving DecidableEq, Repr

/-- `WebSocketManagerService.associateSession`: `Map.set` overwrite. -/
def associateSession (st : WSState) (sessionId clientId : String) : WSState :=
  { st with sessionMap :=
      (sessionId, clientId) :: st.sessionMap.filter (fun p => p.1 ≠ sessionId) }

/-- Result of a delivery call: the boolean the service returns, whether a
first transport send was attempted, the `success` of that send (the
value `MessageHandler.sendShortenedUrl` computes and logs), and the
post-state. -/
structure DeliverResult where
  value : Bool
  sendAttempted : Bool
  sendSucceeded : Bool
  state : WSState
deriving DecidableEq, Repr

/-- `MessageHandler.sendShortenedUrl`: generates a message (fresh
`messageId` supplied as an argument, as `nanoid` is an external RNG),
appends the pending entry with `attempts = 1`, then attempts the first
transport send via the registry and logs (but otherwise ignores) its
result. -/
def sendShortenedUrl (st : WSState) (clientId shortenedUrl : String)
    (freshId : String) (now : Nat) : Bool × WSState :=
  let entry : PendingMessage :=
    { id := freshId
      clientId := clientId
      shortenedURL := shortenedUrl
      attempts := 1
      lastAttempt := now }
  let pending := st.pending ++ [entry]
  let s := st.manager.sendToClient clientId now
  (s.1, { st with manager := s.2, pending := pending })

/-- `WebSocketManagerService.sendShortenedUrlToClient`: returns `false`
when `hasClient` fails, otherwise calls `sendShortenedUrl` and returns
`true` regardless of the transport send's outcome. -/
def sendShortenedUrlToClient (st : WSState) (clientId shortenedUrl : String)
    (freshId : String) (now : Nat) : DeliverResult :=
  if ¬ st.manager.hasClient clientId then
    { value := false, sendAttempted := false, sendSucceeded := false, state := st }
  else
    let s := sendShortenedUrl st clientId shortenedUrl freshId now
    { value := true, sendAttempted := true, sendSucceeded := s.1, state := s.2 }

/-- `WebSocketManagerService.sendShortenedUrlToSession`: with a null
session id, falls back to the first connected client (returning `false`
when there are none); with a session id, looks up the bound client id
(returning `false` when unbound); then delegates to
`sendShortenedUrlToClient`. -/
def sendShortenedUrlToSession (st : WSState) (sessionId : Option String)
    (shortenedUrl : String) (freshId : String) (now : Nat) : DeliverResult :=
  match sessionId with
  | none =>
    match st.manager.getAllClients with
    | [] => { value := false, sendAttempted := false, sendSucceeded := false, state := st }
    | c :: _ => sendShortenedUrlToClient st c.id shortenedUrl freshId now
  | some sid =>
    match (st.sessionMap.find? (fun p => p.1 = sid)).map Prod.snd with
    | none => { value := false, sendAttempted := false, sendSucceeded := false, state := st }
    | some clientId => sendShortenedUrlToClient st clientId shortenedUrl freshId now

/-- An inbound raw WebSocket frame, as the `ConnectionHandler` message
listener distinguishes them: `notJson` is data on which `JSON.parse`
throws; `ackFrame mid?` is valid JSON whose `type` is `ACKNOWLEDGMENT`,
with `mid? = none` when the `messageId` field is missing (so the TS
value is `undefined`); `otherFrame` is any other valid JSON. -/
inductive RawFrame where
  | notJson (raw : String)
  | ackFrame (messageId : Option String)
  | otherFrame
deriving DecidableEq, Repr

/-- The `ws.on('message')` listener from `ConnectionHandler.handleConnection`:
parse failures are caught and ignored (the activity update is not
reached); an `ACKNOWLEDGMENT` frame triggers
`MessageHandler.handleAcknowledgment` (a missing `messageId` compares
`undefined` against string ids, matching nothing); every successfully
parsed frame refreshes the client's activity.  No path registers or
unregisters a client. -/
def onMessageEvent (st : WSState) (clientId : String) (frame : RawFrame)
    (now : Nat) : WSState :=
  match frame with
  | RawFrame.notJson _ => st
  | RawFrame.ackFrame mid0 =>
    let p :=
      match mid0 with
      | some mid => handleAcknowledgment st.pending mid clientId
      | none => st.pending
    { st with
      pending := p
      manager := st.manager.updateClientActivity clientId now }
  | RawFrame.otherFrame =>
    { st with manager := st.manager.updateClientActivity clientId now }

/-- `UrlException` data: error code, HTTP status, and the `attempts`
detail carried by `URL003`. -/
structure UrlExceptionData where
  code : String
  statusCode : Nat
  attempts : Nat
deriving DecidableEq, Repr

/-- The attempt budget hard-coded in `generateUniqueCode`. -/
def GEN_MAX_ATTEMPTS : Nat := 10

/-- The loop of `UrlShortenerService.generateUniqueCode`: `gen i` is the
code `nanoid()` yields on the i-th call of this invocation (1-based),
`ex` is `storageService.exists`.  `attempt` is the current attempt
number, `remaining` the attempts left in the budget.  On success returns
the code together with the attempt number that produced it. -/
def genLoop (gen : Nat → String) (ex : String → Bool) :
    Nat → Nat → Except UrlExceptionData (String × Nat)
  | _, 0 => Except.error ⟨"URL003", 500, GEN_MAX_ATTEMPTS⟩
  | attempt, remaining + 1 =>
    let code := gen attempt
    if ex code then genLoop gen ex (attempt + 1) remaining
    else Except.ok (code, attempt)

/-- `UrlShortenerService.generateUniqueCode`: up to 10 probe-and-return
iterations, then `UrlException('URL003', 500, { attempts: 10 })`. -/
def generateUniqueCode (gen : Nat → String) (ex : String → Bool) :
    Except UrlExceptionData (String × Nat) :=
  genLoop gen ex 1 GEN_MAX_ATTEMPTS

/-- `UrlMapping` from `url.types.ts`. -/
structure UrlMapping where
  code : String
  originalUrl : String
  shortenedUrl : String
  createdAt : Nat
deriving DecidableEq, Repr

/-- `UrlStorageService`'s in-memory `Map` from code to mapping. -/
structure UrlStorageService where
  storage : List (String × UrlMapping)
deriving DecidableEq, Repr

/-- `UrlStorageService.exists`: `this.storage.has(code)`. -/
def UrlStorageService.existsCode (s : UrlStorageService) (code : String) : Bool :=
  s.storage.any (fun p => p.1 = code)

/-- `UrlStorageService.store`: `this.storage.set(mapping.code, mapping)`
(insert or overwrite). -/
def UrlStorageService.store (s : UrlStorageService) (m : UrlMapping) :
    UrlStorageService :=
  ⟨(m.code, m) :: s.storage.filter (fun p => p.1 ≠ m.code)⟩

/-- `UrlShortenerService.shortenUrl`: generates a unique code against the
store, builds the mapping with the composed short URL, stores it, and
returns it.  `gen` supplies this call's `nanoid()` outputs. -/
def shortenUrl (gen : Nat → String) (baseUrl originalUrl : String) (now : Nat)
    (s : UrlStorageService) : Except UrlExceptionData (UrlMapping × UrlStorageService) :=
  match generateUniqueCode gen s.existsCode with
  | Except.error e => Except.error e
  | Except.ok (code, _) =>
    let mapping : UrlMapping :=
      { code := code
        originalUrl := originalUrl
        shortenedUrl := baseUrl ++ "/" ++ code
        createdAt := now }
    Except.ok (mapping, s.store mapping)

/-- N sequential `shortenUrl` calls against one storage service:
`gens k` supplies the k-th call's `nanoid()` stream; requests are
`(originalUrl, now)` pairs.  Collects the mappings of the successful
calls (a failed generation stores nothing and returns no code). -/
def shortenAll (gens : Nat → Nat → String) (baseUrl : String) :
    Nat → List (String × Nat) → UrlStorageService → List UrlMapping × UrlStorageService
  | _, [], s => ([], s)
  | k, (u, t) :: reqs, s =>
    match shortenUrl (gens k) baseUrl u t s with
    | Except.error _ => shortenAll gens baseUrl (k + 1) reqs s
    | Except.ok (m, s') =>
      let r := shortenAll gens baseUrl (k + 1) reqs s'
      (m :: r.1, r.2)

/-- The channel resolution `sendShortenedUrlToSession` performs inline:
a null session id falls back to the first connected client, a session id
goes through the `clientSessionMap`. -/
def resolveClientId (st : WSState) : Option String → Option String
  | none => st.manager.getAllClients.head?.map (fun c => c.id)
  | some sid => (st.sessionMap.find? (fun p => p.1 = sid)).map Prod.snd

/-- Ledger states reachable through the operations the service performs
on `MessageHandler.pendingMessages`: the initial empty list, recording a
first attempt (`sendShortenedUrl` appends an entry with `attempts = 1`),
acknowledging, clearing, and one retry sweep under `DEFAULT_RETRY_CONFIG`
(which is how `WebSocketManagerService` constructs its `RetryHandler`)
against an arbitrary registry state and clock. -/
inductive ReachableLedger : List PendingMessage → Prop where
  | nil : ReachableLedger []
  | record (mid cid url : String) (t : Nat) {p : List PendingMessage} :
      ReachableLedger p →
      ReachableLedger (p ++ [{ id := mid, clientId := cid, shortenedURL := url,
                               attempts := 1, lastAttempt := t }])
  | ack (mid cid : String) {p : List PendingMessage} :
      ReachableLedger p → ReachableLedger (handleAcknowledgment p mid cid)
  | clear {p : List PendingMessage} :
      ReachableLedger p → ReachableLedger []
  | sweep (now : Nat) (m : MultiClientManager) {p : List PendingMessage} :
      ReachableLedger p →
      ReachableLedger (processPendingMessages DEFAULT_RETRY_CONFIG now m p).2.1

/-! ### Registry lemmas -/

namespace MultiClientManager

lemma getClient_updateClientActivity (m : MultiClientManager) (c' : String) (now : Nat)
    (cid : String) :
    (m.updateClientActivity c' now).getClient cid =
      (m.getClient cid).map
        (fun c => if c.id = c' then { c with lastActivity := now } else c) := by
  unfold getClient updateClientActivity
  rw [List.find?_map]
  have hp : ((fun c : ClientConnection => decide (c.id = cid)) ∘ fun c =>
      if c.id = c' then { c with lastActivity := now } else c) =
      (fun c : ClientConnection => decide (c.id = cid)) := by
    funext c
    by_cases h : c.id = c' <;> simp [h, Function.comp]
  rw [hp]

lemma hasClient_updateClientActivity (m : MultiClientManager) (c' : String) (now : Nat)
    (cid : String) :
    (m.updateClientActivity c' now).hasClient cid = m.hasClient cid := by
  unfold hasClient
  rw [getClient_updateClientActivity]
  cases m.getClient cid with
  | none => rfl
  | some c => by_cases h : c.id = c' <;> simp [h]

lemma getClient_removeClient (m : MultiClientManager) (x cid : String) :
    (m.removeClient x).getClient cid = if cid = x then none else m.getClient cid := by
  unfold getClient removeClient
  rw [List.find?_filter]
  by_cases h : cid = x
  · subst h
    rw [if_pos rfl, List.find?_eq_none]
    intro a _
    simp
  · rw [if_neg h]
    have hp : (fun a : ClientConnection =>
        decide (decide (a.id ≠ x) = true ∧ decide (a.id = cid) = true)) =
        (fun c : ClientConnection => decide (c.id = cid)) := by
      funext a
      by_cases ha : a.id = cid <;> simp [ha, h]
    rw [hp]

lemma hasClient_removeClient (m : MultiClientManager) (x cid : String) :
    (m.removeClient x).hasClient cid = if cid = x then false else m.hasClient cid := by
  unfold hasClient
  rw [getClient_removeClient]
  by_cases h : cid = x <;> simp [h]

lemma hasClient_sendToClient (m : MultiClientManager) (c' : String) (now : Nat)
    (cid : String) (h : m.hasClient cid = false) :
    ((m.sendToClient c' now).2).hasClient cid = false := by
  unfold sendToClient
  cases hg : m.getClient c' with
  | none => simpa using h
  | some c =>
    by_cases h1 : c.readyState = ReadyState.OPEN
    · by_cases h2 : c.sendThrows
      · simp only [h1, h2]
        simp [hasClient_removeClient, h]
      · simp only [h1, h2]
        simp [hasClient_updateClientActivity, h]
    · simp [h1, h]

end MultiClientManager

/-! ### Sweep lemmas -/

lemma sweep_retained_ids (cfg : RetryConfig) (now : Nat) :
    ∀ (msgs : List PendingMessage) (m : MultiClientManager),
      ∀ e' ∈ (processPendingMessages cfg now m msgs).2.1, ∃ e ∈ msgs, e'.id = e.id := by
  intro msgs
  induction msgs with
  | nil => intro m e' h; simp [processPendingMessages] at h
  | cons msg rest ih =>
    intro m e' h
    simp only [processPendingMessages] at h
    by_cases h1 : cfg.maxAttempts ≤ msg.attempts
    · rw [if_pos h1] at h
      obtain ⟨e, he, hid⟩ := ih m e' h
      exact ⟨e, List.mem_cons_of_mem _ he, hid⟩
    · rw [if_neg h1] at h
      by_cases h2 : (now : Int) - (msg.lastAttempt : Int) < (cfg.retryDelay : Int)
      · rw [if_pos h2] at h
        rcases List.mem_cons.mp h with h | h
        · exact ⟨msg, List.mem_cons_self _ _, by rw [h]⟩
        · obtain ⟨e, he, hid⟩ := ih m e' h
          exact ⟨e, List.mem_cons_of_mem _ he, hid⟩
      · rw [if_neg h2] at h
        by_cases h3 : m.hasClient msg.clientId
        · rw [if_neg (by simpa using h3)] at h
          by_cases h4 : (m.sendToClient msg.clientId now).1
          · rw [if_pos h4] at h
            rcases List.mem_cons.mp h with h | h
            · exact ⟨msg, List.mem_cons_self _ _, by rw [h]⟩
            · obtain ⟨e, he, hid⟩ := ih _ e' h
              exact ⟨e, List.mem_cons_of_mem _ he, hid⟩
          · rw [if_neg h4] at h
            obtain ⟨e, he, hid⟩ := ih _ e' h
            exact ⟨e, List.mem_cons_of_mem _ he, hid⟩
        · rw [if_pos (by simpa using h3)] at h
          obtain ⟨e, he, hid⟩ := ih m e' h
          exact ⟨e, List.mem_cons_of_mem _ he, hid⟩

lemma sweep_sends_ids (cfg : RetryConfig) (now : Nat) :
    ∀ (msgs : List PendingMessage) (m : MultiClientManager),
      ∀ s ∈ (processPendingMessages cfg now m msgs).2.2,
        ∃ e ∈ msgs, s.2 = e.id ∧ s.1 = e.clientId := by
  intro msgs
  induction msgs with
  | nil => intro m s h; simp [processPendingMessages] at h
  | cons msg rest ih =>
    intro m s h
    simp only [processPendingMessages] at h
    by_cases h1 : cfg.maxAttempts ≤ msg.attempts
    · rw [if_pos h1] at h
      obtain ⟨e, he, hid⟩ := ih m s h
      exact ⟨e, List.mem_cons_of_mem _ he, hid⟩
    · rw [if_neg h1] at h
      by_cases h2 : (now : Int) - (msg.lastAttempt : Int) < (cfg.retryDelay : Int)
      · rw [if_pos h2] at h
        obtain ⟨e, he, hid⟩ := ih m s h
        exact ⟨e, List.mem_cons_of_mem _ he, hid⟩
      · rw [if_neg h2] at h
        by_cases h3 : m.hasClient msg.clientId
        · rw [if_neg (by simpa using h3)] at h
          by_cases h4 : (m.sendToClient msg.clientId now).1
          · rw [if_pos h4] at h
            rcases List.mem_cons.mp h with h | h
            · exact ⟨msg, List.mem_cons_self _ _, by rw [h], by rw [h]⟩
            · obtain ⟨e, he, hid⟩ := ih _ s h
              exact ⟨e, List.mem_cons_of_mem _ he, hid⟩
          · rw [if_neg h4] at h
            rcases List.mem_cons.mp h with h | h
            · exact ⟨msg, List.mem_cons_self _ _, by rw [h], by rw [h]⟩
            · obtain ⟨e, he, hid⟩ := ih _ s h
              exact ⟨e, List.mem_cons_of_mem _ he, hid⟩
        · rw [if_pos (by simpa using h3)] at h
          obtain ⟨e, he, hid⟩ := ih m s h
          exact ⟨e, List.mem_cons_of_mem _ he, hid⟩

lemma sweep_attempts_le (cfg : RetryConfig) (now : Nat) :
    ∀ (msgs : List PendingMessage) (m : MultiClientManager),
      (∀ e ∈ msgs, e.attempts ≤ cfg.maxAttempts) →
      ∀ e' ∈ (processPendingMessages cfg now m msgs).2.1,
        e'.attempts ≤ cfg.maxAttempts := by
  intro msgs
  induction msgs with
  | nil => intro m _ e' h; simp [processPendingMessages] at h
  | cons msg rest ih =>
    intro m hall e' h
    have hrest : ∀ e ∈ rest, e.attempts ≤ cfg.maxAttempts :=
      fun e he => hall e (List.mem_cons_of_mem _ he)
    simp only [processPendingMessages] at h
    by_cases h1 : cfg.maxAttempts ≤ msg.attempts
    · rw [if_pos h1] at h
      exact ih m hrest e' h
    · rw [if_neg h1] at h
      by_cases h2 : (now : Int) - (msg.lastAttempt : Int) < (cfg.retryDelay : Int)
      · rw [if_pos h2] at h
        rcases List.mem_cons.mp h with h | h
        · rw [h]; exact hall msg (List.mem_cons_self _ _)
        · exact ih m hrest e' h
      · rw [if_neg h2] at h
        by_cases h3 : m.hasClient msg.clientId
        · rw [if_neg (by simpa using h3)] at h
          by_cases h4 : (m.sendToClient msg.clientId now).1
          · rw [if_pos h4] at h
            rcases List.mem_cons.mp h with h | h
            · rw [h]; exact Nat.lt_of_not_le h1
            · exact ih _ hrest e' h
          · rw [if_neg h4] at h
            exact ih _ hrest e' h
        · rw [if_pos (by simpa using h3)] at h
          exact ih m hrest e' h

lemma sweep_max_dropped (cfg : RetryConfig) (now : Nat) (mid : String) :
    ∀ (msgs : List PendingMessage) (m : MultiClientManager),
      (∀ e ∈ msgs, e.id = mid → cfg.maxAttempts ≤ e.attempts) →
      (∀ e' ∈ (processPendingMessages cfg now m msgs).2.1, e'.id ≠ mid) ∧
      (∀ s ∈ (processPendingMessages cfg now m msgs).2.2, s.2 ≠ mid) := by
  intro msgs
  induction msgs with
  | nil =>
    intro m _
    constructor <;> intro x h <;> simp [processPendingMessages] at h
  | cons msg rest ih =>
    intro m hall
    have hrest : ∀ e ∈ rest, e.id = mid → cfg.maxAttempts ≤ e.attempts :=
      fun e he => hall e (List.mem_cons_of_mem _ he)
    simp only [processPendingMessages]
    by_cases h1 : cfg.maxAttempts ≤ msg.attempts
    · rw [if_pos h1]
      exact ih m hrest
    · have hmsg : msg.id ≠ mid := fun hid => h1 (hall msg (List.mem_cons_self _ _) hid)
      rw [if_neg h1]
      by_cases h2 : (now : Int) - (msg.lastAttempt : Int) < (cfg.retryDelay : Int)
      · rw [if_pos h2]
        refine ⟨?_, (ih m hrest).2⟩
        intro e' he'
        rcases List.mem_cons.mp he' with h | h
        · rw [h]; exact hmsg
        · exact (ih m hrest).1 e' h
      · rw [if_neg h2]
        by_cases h3 : m.hasClient msg.clientId
        · rw [if_neg (by simpa using h3)]
          by_cases h4 : (m.sendToClient msg.clientId now).1
          · rw [if_pos h4]
            refine ⟨?_, ?_⟩
            · intro e' he'
              rcases List.mem_cons.mp he' with h | h
              · rw [h]; exact hmsg
              · exact (ih _ hrest).1 e' h
            · intro s hs
              rcases List.mem_cons.mp hs with h | h
              · rw [h]; exact hmsg
              · exact (ih _ hrest).2 s h
          · rw [if_neg h4]
            refine ⟨(ih _ hrest).1, ?_⟩
            intro s hs
            rcases List.mem_cons.mp hs with h | h
            · rw [h]; exact hmsg
            · exact (ih _ hrest).2 s h
        · rw [if_pos (by simpa using h3)]
          exact ih m hrest

lemma sweep_gone_dropped (cfg : RetryConfig) (now : Nat) (cid mid : String) :
    ∀ (msgs : List PendingMessage) (m : MultiClientManager),
      m.hasClient cid = false →
      (∀ e ∈ msgs, e.id = mid →
        e.clientId = cid ∧ e.attempts < cfg.maxAttempts ∧
        (cfg.retryDelay : Int) ≤ (now : Int) - (e.lastAttempt : Int)) →
      (∀ e' ∈ (processPendingMessages cfg now m msgs).2.1, e'.id ≠ mid) ∧
      (∀ s ∈ (processPendingMessages cfg now m msgs).2.2, s.2 ≠ mid) := by
  intro msgs
  induction msgs with
  | nil =>
    intro m _ _
    constructor <;> intro x h <;> simp [processPendingMessages] at h
  | cons msg rest ih =>
    intro m hgone hall
    have hrest : ∀ e ∈ rest, e.id = mid →
        e.clientId = cid ∧ e.attempts < cfg.maxAttempts ∧
        (cfg.retryDelay : Int) ≤ (now : Int) - (e.lastAttempt : Int) :=
      fun e he => hall e (List.mem_cons_of_mem _ he)
    simp only [processPendingMessages]
    by_cases h1 : cfg.maxAttempts ≤ msg.attempts
    · rw [if_pos h1]
      exact ih m hgone hrest
    · rw [if_neg h1]
      by_cases h2 : (now : Int) - (msg.lastAttempt : Int) < (cfg.retryDelay : Int)
      · have hmsg : msg.id ≠ mid := by
          intro hid
          exact absurd (hall msg (List.mem_cons_self _ _) hid).2.2 (not_le.mpr h2)
        rw [if_pos h2]
        refine ⟨?_, (ih m hgone hrest).2⟩
        intro e' he'
        rcases List.mem_cons.mp he' with h | h
        · rw [h]; exact hmsg
        · exact (ih m hgone hrest).1 e' h
      · rw [if_neg h2]
        by_cases h3 : m.hasClient msg.clientId
        · have hmsg : msg.id ≠ mid := by
            intro hid
            have hc := (hall msg (List.mem_cons_self _ _) hid).1
            rw [hc] at h3
            exact absurd hgone (by simp [h3])
          rw [if_neg (by simpa using h3)]
          have hgone' : ((m.sendToClient msg.clientId now).2).hasClient cid = false :=
            MultiClientManager.hasClient_sendToClient m _ now cid hgone
          by_cases h4 : (m.sendToClient msg.clientId now).1
          · rw [if_pos h4]
            refine ⟨?_, ?_⟩
            · intro e' he'
              rcases List.mem_cons.mp he' with h | h
              · rw [h]; exact hmsg
              · exact (ih _ hgone' hrest).1 e' h
            · intro s hs
              rcases List.mem_cons.mp hs with h | h
              · rw [h]; exact hmsg
              · exact (ih _ hgone' hrest).2 s h
          · rw [if_neg h4]
            refine ⟨(ih _ hgone' hrest).1, ?_⟩
            intro s hs
            rcases List.mem_cons.mp hs with h | h
            · rw [h]; exact hmsg
            · exact (ih _ hgone' hrest).2 s h
        · rw [if_pos (by simpa using h3)]
          exact ih m hgone hrest

lemma sweep_keeps_not_due (cfg : RetryConfig) (now : Nat) :
    ∀ (msgs : List PendingMessage) (m : MultiClientManager) (e : PendingMessage),
      e ∈ msgs → e.attempts < cfg.maxAttempts →
      (now : Int) - (e.lastAttempt : Int) < (cfg.retryDelay : Int) →
      e ∈ (processPendingMessages cfg now m msgs).2.1 := by
  intro msgs
  induction msgs with
  | nil => intro m e he; exact absurd he (List.not_mem_nil e)
  | cons msg rest ih =>
    intro m e he hatt hdue
    simp only [processPendingMessages]
    rcases List.mem_cons.mp he with heq | he'
    · subst heq
      rw [if_neg (not_le.mpr hatt), if_pos hdue]
      exact List.mem_cons_self _ _
    · by_cases h1 : cfg.maxAttempts ≤ msg.attempts
      · rw [if_pos h1]
        exact ih m e he' hatt hdue
      · rw [if_neg h1]
        by_cases h2 : (now : Int) - (msg.lastAttempt : Int) < (cfg.retryDelay : Int)
        · rw [if_pos h2]
          exact List.mem_cons_of_mem _ (ih m e he' hatt hdue)
        · rw [if_neg h2]
          by_cases h3 : m.hasClient msg.clientId
          · rw [if_neg (by simpa using h3)]
            by_cases h4 : (m.sendToClient msg.clientId now).1
            · rw [if_pos h4]
              exact List.mem_cons_of_mem _ (ih _ e he' hatt hdue)
            · rw [if_neg h4]
              exact ih _ e he' hatt hdue
          · rw [if_pos (by simpa using h3)]
            exact ih m e he' hatt hdue

/-! ### Code-generator lemmas -/

lemma genLoop_error (gen : Nat → String) (ex : String → Bool) :
    ∀ (r a : Nat) (e : UrlExceptionData), genLoop gen ex a r = Except.error e →
      e = ⟨"URL003", 500, GEN_MAX_ATTEMPTS⟩ ∧
      ∀ i, a ≤ i → i < a + r → ex (gen i) = true := by
  intro r
  induction r with
  | zero =>
    intro a e h
    refine ⟨by simpa [genLoop] using h.symm, ?_⟩
    intro i h1 h2
    omega
  | succ r ih =>
    intro a e h
    simp only [genLoop] at h
    by_cases hx : ex (gen a)
    · rw [if_pos hx] at h
      obtain ⟨he, hall⟩ := ih (a + 1) e h
      refine ⟨he, ?_⟩
      intro i h1 h2
      rcases Nat.eq_or_lt_of_le h1 with rfl | h1'
      · exact hx
      · exact hall i h1' (by omega)
    · rw [if_neg hx] at h
      exact absurd h (by simp)

lemma genLoop_exhaust (gen : Nat → String) (ex : String → Bool) :
    ∀ (r a : Nat), (∀ i, a ≤ i → i < a + r → ex (gen i) = true) →
      genLoop gen ex a r = Except.error ⟨"URL003", 500, GEN_MAX_ATTEMPTS⟩ := by
  intro r
  induction r with
  | zero => intro a _; rfl
  | succ r ih =>
    intro a hall
    have hx : ex (gen a) = true := hall a le_rfl (by omega)
    simp only [genLoop, hx, if_pos]
    exact ih (a + 1) (fun i h1 h2 => hall i (by omega) (by omega))

lemma genLoop_ok (gen : Nat → String) (ex : String → Bool) :
    ∀ (k a r : Nat), (∀ i, a ≤ i → i < a + k → ex (gen i) = true) →
      ex (gen (a + k)) = false → k < r →
      genLoop gen ex a r = Except.ok (gen (a + k), a + k) := by
  intro k
  induction k with
  | zero =>
    intro a r _ hfalse hr
    obtain ⟨r', rfl⟩ : ∃ r', r = r' + 1 := ⟨r - 1, by omega⟩
    simp only [genLoop]
    rw [if_neg (by simp [Nat.add_zero] at hfalse; simp [hfalse])]
    simp
  | succ k ih =>
    intro a r hall hfalse hr
    obtain ⟨r', rfl⟩ : ∃ r', r = r' + 1 := ⟨r - 1, by omega⟩
    have hx : ex (gen a) = true := hall a le_rfl (by omega)
    simp only [genLoop, hx, if_pos]
    have := ih (a + 1) r' (fun i h1 h2 => hall i (by omega) (by omega))
      (by rw [show a + 1 + k = a + (k + 1) by omega]; exact hfalse) (by omega)
    rw [this, show a + 1 + k = a + (k + 1) by omega]

lemma genLoop_ok_fresh (gen : Nat → String) (ex : String → Bool) :
    ∀ (r a : Nat) (code : String) (n : Nat),
      genLoop gen ex a r = Except.ok (code, n) →
      ex code = false ∧ code = gen n := by
  intro r
  induction r with
  | zero => intro a code n h; exact absurd h (by simp [genLoop])
  | succ r ih =>
    intro a code n h
    simp only [genLoop] at h
    by_cases hx : ex (gen a)
    · rw [if_pos hx] at h
      exact ih (a + 1) code n h
    · rw [if_neg hx] at h
      obtain ⟨h1, h2⟩ : gen a = code ∧ a = n := by
        have := h
        simp at this
        exact ⟨this.1, this.2⟩
      subst h1; subst h2
      exact ⟨by simpa using hx, rfl⟩

/-! ### Storage lemmas -/

lemma existsCode_store (s : UrlStorageService) (mp : UrlMapping) (c : String) :
    (s.store mp).existsCode c = true ↔ (c = mp.code ∨ s.existsCode c = true) := by
  simp only [UrlStorageService.store, UrlStorageService.existsCode, List.any_eq_true]
  constructor
  · rintro ⟨p, hp, hpc⟩
    rcases List.mem_cons.mp hp with rfl | hp'
    · left; exact (of_decide_eq_true hpc).symm
    · right; exact ⟨p, (List.mem_filter.mp hp').1, hpc⟩
  · rintro (rfl | ⟨p, hp, hpc⟩)
    · exact ⟨(mp.code, mp), List.mem_cons_self _ _, by simp⟩
    · by_cases hc : p.1 = mp.code
      · refine ⟨(mp.code, mp), List.mem_cons_self _ _, ?_⟩
        have := of_decide_eq_true hpc
        simp [← this, hc]
      · exact ⟨p, List.mem_cons_of_mem _ (List.mem_filter.mpr ⟨hp, by simpa using hc⟩), hpc⟩

lemma shortenUrl_ok (gen : Nat → String) (baseUrl originalUrl : String) (now : Nat)
    (s : UrlStorageService) (mp : UrlMapping) (s' : UrlStorageService)
    (h : shortenUrl gen baseUrl originalUrl now s = Except.ok (mp, s')) :
    s.existsCode mp.code = false ∧ s' = s.store mp := by
  unfold shortenUrl at h
  cases hg : generateUniqueCode gen s.existsCode with
  | error e => rw [hg] at h; exact absurd h (by simp)
  | ok v =>
    obtain ⟨code, n⟩ := v
    rw [hg] at h
    simp only [Except.ok.injEq, Prod.mk.injEq] at h
    obtain ⟨hmp, hs⟩ := h
    have hfresh := (genLoop_ok_fresh gen s.existsCode GEN_MAX_ATTEMPTS 1 code n hg).1
    constructor
    · rw [← hmp]; exact hfresh
    · rw [← hs, ← hmp]

lemma shortenAll_mono (gens : Nat → Nat → String) (baseUrl : String) (c : String) :
    ∀ (reqs : List (String × Nat)) (k : Nat) (s : UrlStorageService),
      s.existsCode c = true →
      (shortenAll gens baseUrl k reqs s).2.existsCode c = true := by
  intro reqs
  induction reqs with
  | nil => intro k s h; exact h
  | cons req reqs ih =>
    intro k s h
    obtain ⟨u, t⟩ := req
    simp only [shortenAll]
    cases hc : shortenUrl (gens k) baseUrl u t s with
    | error e => exact ih (k + 1) s h
    | ok v =>
      obtain ⟨mp, s'⟩ := v
      have hs' : s' = s.store mp := (shortenUrl_ok _ _ _ _ _ _ _ hc).2
      exact ih (k + 1) s' (by rw [hs']; exact (existsCode_store s mp c).mpr (Or.inr h))

lemma shortenAll_fresh (gens : Nat → Nat → String) (baseUrl : String) (c : String) :
    ∀ (reqs : List (String × Nat)) (k : Nat) (s : UrlStorageService),
      s.existsCode c = true →
      ∀ mp ∈ (shortenAll gens baseUrl k reqs s).1, mp.code ≠ c := by
  intro reqs
  induction reqs with
  | nil => intro k s _ mp h; exact absurd h (List.not_mem_nil mp)
  | cons req reqs ih =>
    intro k s h mp hmp
    obtain ⟨u, t⟩ := req
    simp only [shortenAll] at hmp
    cases hc : shortenUrl (gens k) baseUrl u t s with
    | error e =>
      rw [hc] at hmp
      exact ih (k + 1) s h mp hmp
    | ok v =>
      obtain ⟨mp0, s'⟩ := v
      rw [hc] at hmp
      obtain ⟨hfresh, hs'⟩ := shortenUrl_ok _ _ _ _ _ _ _ hc
      rcases List.mem_cons.mp hmp with rfl | hmp'
      · intro hcc; rw [hcc] at hfresh; rw [hfresh] at h; exact Bool.false_ne_true h
      · exact ih (k + 1) s' (by rw [hs']; exact (existsCode_store s mp0 c).mpr (Or.inr h))
          mp hmp'

lemma shortenAll_nodup (gens : Nat → Nat → String) (baseUrl : String) :
    ∀ (reqs : List (String × Nat)) (k : Nat) (s : UrlStorageService),
      List.Pairwise (fun a b => a.code ≠ b.code) (shortenAll gens baseUrl k reqs s).1 := by
  intro reqs
  induction reqs with
  | nil => intro k s; exact List.Pairwise.nil
  | cons req reqs ih =>
    intro k s
    obtain ⟨u, t⟩ := req
    simp only [shortenAll]
    cases hc : shortenUrl (gens k) baseUrl u t s with
    | error e => exact ih (k + 1) s
    | ok v =>
      obtain ⟨mp, s'⟩ := v
      obtain ⟨_, hs'⟩ := shortenUrl_ok _ _ _ _ _ _ _ hc
      refine List.Pairwise.cons ?_ (ih (k + 1) s')
      intro b hb
      have hstored : s'.existsCode mp.code = true := by
        rw [hs']; exact (existsCode_store s mp mp.code).mpr (Or.inl rfl)
      exact fun hbc => shortenAll_fresh gens baseUrl mp.code reqs (k + 1) s' hstored b hb hbc.symm

lemma shortenAll_stored (gens : Nat → Nat → String) (baseUrl : String) :
    ∀ (reqs : List (String × Nat)) (k : Nat) (s : UrlStorageService),
      ∀ mp ∈ (shortenAll gens baseUrl k reqs s).1,
        (shortenAll gens baseUrl k reqs s).2.existsCode mp.code = true := by
  intro reqs
  induction reqs with
  | nil => intro k s mp h; exact absurd h (List.not_mem_nil mp)
  | cons req reqs ih =>
    intro k s mp hmp
    obtain ⟨u, t⟩ := req
    simp only [shortenAll] at hmp ⊢
    cases hc : shortenUrl (gens k) baseUrl u t s with
    | error e =>
      rw [hc] at hmp
      exact ih (k + 1) s mp hmp
    | ok v =>
      obtain ⟨mp0, s'⟩ := v
      rw [hc] at hmp
      obtain ⟨_, hs'⟩ := shortenUrl_ok _ _ _ _ _ _ _ hc
      rcases List.mem_cons.mp hmp with rfl | hmp'
      · have hstored : s'.existsCode mp.code = true := by
          rw [hs']; exact (existsCode_store s mp mp.code).mpr (Or.inl rfl)
        exact shortenAll_mono gens baseUrl mp.code reqs (k + 1) s' hstored
      · exact ih (k + 1) s' mp hmp'

/-! ### Claim theorems -/

/-- C5: `handleAcknowledgment` is total and idempotent: membership in the
resulting ledger is exactly "was present with a different id" (so unknown,
retired or already-acknowledged ids are silent no-ops leaving every other
entry unchanged), acknowledging the same id twice equals acknowledging it
once, every entry bearing the id is absent afterwards, and an id matching
no entry leaves the ledger exactly as it was. -/
theorem acknowledge_total_idempotent (msgs : List PendingMessage) (mid cid cid' : String) :
    (∀ e, e ∈ handleAcknowledgment msgs mid cid ↔ (e ∈ msgs ∧ e.id ≠ mid)) ∧
    handleAcknowledgment (handleAcknowledgment msgs mid cid) mid cid' =
      handleAcknowledgment msgs mid cid ∧
    (∀ e ∈ handleAcknowledgment msgs mid cid, e.id ≠ mid) ∧
    ((∀ e ∈ msgs, e.id ≠ mid) → handleAcknowledgment msgs mid cid = msgs) := by
  refine ⟨?_, ?_, ?_, ?_⟩
  · intro e
    simp [handleAcknowledgment, List.mem_filter]
  · simp only [handleAcknowledgment, List.filter_filter]
    congr 1
    funext a
    by_cases h : a.id = mid <;> simp [h]
  · intro e he
    exact of_decide_eq_true (List.mem_filter.mp he).2
  · intro hall
    exact List.filter_eq_self.mpr (fun e he => decide_eq_true (hall e he))

/-- Witness for C5 at a concrete ledger: acknowledging an id that matches
no entry leaves the ledger unchanged. -/
theorem acknowledge_total_idempotent_witness :
    handleAcknowledgment
      [{ id := "m1", clientId := "c1", shortenedURL := "u", attempts := 1, lastAttempt := 0 }]
      "zz" "c2" =
      [{ id := "m1", clientId := "c1", shortenedURL := "u", attempts := 1, lastAttempt := 0 }] :=
  (acknowledge_total_idempotent
    [{ id := "m1", clientId := "c1", shortenedURL := "u", attempts := 1, lastAttempt := 0 }]
    "zz" "c2" "c3").2.2.2 (by decide)

/-- C10: acknowledgment handling ignores the acknowledging channel: acks
from any two clients yield identical ledger states, so a client echoing
another client's message id retires that other client's pending entry. -/
theorem acknowledgment_ignores_sender (pending : List PendingMessage) (mid c1 c2 : String) :
    handleAcknowledgment pending mid c1 = handleAcknowledgment pending mid c2 ∧
    (∀ e ∈ pending, e.id = mid → e.clientId = c1 →
      e ∉ handleAcknowledgment pending mid c2) := by
  refine ⟨rfl, ?_⟩
  intro e _ hid _ hmem
  exact of_decide_eq_true (List.mem_filter.mp hmem).2 hid

/-- Witness for C10: client `c2`'s ack for `m1` removes the entry
targeted at client `c1`. -/
theorem acknowledgment_ignores_sender_witness :
    ({ id := "m1", clientId := "c1", shortenedURL := "u", attempts := 1, lastAttempt := 0 }
        : PendingMessage) ∉
      handleAcknowledgment
        [{ id := "m1", clientId := "c1", shortenedURL := "u", attempts := 1, lastAttempt := 0 }]
        "m1" "c2" :=
  (acknowledgment_ignores_sender
    [{ id := "m1", clientId := "c1", shortenedURL := "u", attempts := 1, lastAttempt := 0 }]
    "m1" "c1" "c2").2 _ (by simp) (by decide) (by decide)

/-- C4: for a ledger holding a pending entry with id `mid` that is due
for retry, acknowledge and one sweep applied in either order leave no
entry with id `mid`: the entry ends up removed, never re-armed after the
acknowledgment. -/
theorem acknowledge_wins (cfg : RetryConfig) (now : Nat) (m : MultiClientManager)
    (msgs : List PendingMessage) (mid cid : String)
    (_hdue : ∃ e ∈ msgs, e.id = mid ∧ e.attempts < cfg.maxAttempts ∧
      (cfg.retryDelay : Int) ≤ (now : Int) - (e.lastAttempt : Int)) :
    (∀ e' ∈ (processPendingMessages cfg now m (handleAcknowledgment msgs mid cid)).2.1,
      e'.id ≠ mid) ∧
    (∀ e' ∈ handleAcknowledgment (processPendingMessages cfg now m msgs).2.1 mid cid,
      e'.id ≠ mid) := by
  constructor
  · intro e' he'
    obtain ⟨e, he, hid⟩ := sweep_retained_ids cfg now _ m e' he'
    rw [hid]
    exact of_decide_eq_true (List.mem_filter.mp he).2
  · intro e' he'
    exact of_decide_eq_true (List.mem_filter.mp he').2

/-- Witness for C4 at a concrete due entry against an empty registry. -/
theorem acknowledge_wins_witness :
    (∀ e' ∈ (processPendingMessages DEFAULT_RETRY_CONFIG 30000 ⟨[]⟩
        (handleAcknowledgment
          [{ id := "m1", clientId := "c1", shortenedURL := "u", attempts := 1, lastAttempt := 0 }]
          "m1" "c1")).2.1, e'.id ≠ "m1") ∧
    (∀ e' ∈ handleAcknowledgment
        (processPendingMessages DEFAULT_RETRY_CONFIG 30000 ⟨[]⟩
          [{ id := "m1", clientId := "c1", shortenedURL := "u", attempts := 1, lastAttempt := 0 }]).2.1
        "m1" "c1", e'.id ≠ "m1") :=
  acknowledge_wins DEFAULT_RETRY_CONFIG 30000 ⟨[]⟩
    [{ id := "m1", clientId := "c1", shortenedURL := "u", attempts := 1, lastAttempt := 0 }]
    "m1" "c1" (by decide)

/-- C7: processing any inbound raw frame — invalid JSON, an unrecognized
type, or a missing messageId — never unregisters (or registers) a
channel: the registry's ids and ready states, its client count, and
every `hasClient` answer are unchanged, and the handler is total (the
source wraps the body in try/catch, so no exception escapes). -/
theorem inbound_frame_safe (st : WSState) (cid : String) (frame : RawFrame) (now : Nat) :
    (onMessageEvent st cid frame now).manager.getClientCount =
      st.manager.getClientCount ∧
    (onMessageEvent st cid frame now).manager.clients.map (fun c => (c.id, c.readyState)) =
      st.manager.clients.map (fun c => (c.id, c.readyState)) ∧
    (∀ cid', (onMessageEvent st cid frame now).manager.hasClient cid' =
      st.manager.hasClient cid') := by
  have hupd : ∀ (mgr : MultiClientManager),
      (mgr.updateClientActivity cid now).getClientCount = mgr.getClientCount ∧
      (mgr.updateClientActivity cid now).clients.map (fun c => (c.id, c.readyState)) =
        mgr.clients.map (fun c => (c.id, c.readyState)) ∧
      (∀ cid', (mgr.updateClientActivity cid now).hasClient cid' = mgr.hasClient cid') := by
    intro mgr
    refine ⟨?_, ?_, ?_⟩
    · simp [MultiClientManager.getClientCount, MultiClientManager.updateClientActivity]
    · simp only [MultiClientManager.updateClientActivity, List.map_map]
      congr 1
      funext c
      by_cases h : c.id = cid <;> simp [h, Function.comp]
    · intro cid'
      exact MultiClientManager.hasClient_updateClientActivity mgr cid now cid'
  cases frame with
  | notJson raw => exact ⟨rfl, rfl, fun _ => rfl⟩
  | ackFrame mid0 => exact hupd st.manager
  | otherFrame => exact hupd st.manager

/-- C3: the attempt-count invariant.  (1) In every reachable ledger
state every entry's attempt count is at most the configured maximum;
(2) recording a delivery appends the entry with attempts = 1;
(3) a sweep removes every entry whose count has reached the maximum
without attempting a send for its id; (4) every send a sweep attempts
carries the id and target of an entry of the input ledger, so an id
absent from the ledger is never sent again. -/
theorem attempts_bounded :
    (∀ p, ReachableLedger p → ∀ e ∈ p, e.attempts ≤ DEFAULT_RETRY_CONFIG.maxAttempts) ∧
    (∀ st cid url fid now, ((sendShortenedUrl st cid url fid now).2).pending =
      st.pending ++ [{ id := fid, clientId := cid, shortenedURL := url,
                       attempts := 1, lastAttempt := now }]) ∧
    (∀ cfg now (m : MultiClientManager) msgs mid,
      (∀ e ∈ msgs, e.id = mid → cfg.maxAttempts ≤ e.attempts) →
      (∀ e' ∈ (processPendingMessages cfg now m msgs).2.1, e'.id ≠ mid) ∧
      (∀ s ∈ (processPendingMessages cfg now m msgs).2.2, s.2 ≠ mid)) ∧
    (∀ cfg now (m : MultiClientManager) msgs,
      ∀ s ∈ (processPendingMessages cfg now m msgs).2.2,
        ∃ e ∈ msgs, s.2 = e.id ∧ s.1 = e.clientId) := by
  refine ⟨?_, ?_, ?_, ?_⟩
  · intro p hp
    induction hp with
    | nil => intro e he; exact absurd he (List.not_mem_nil e)
    | record mid cid url t _ ih =>
      intro e he
      rcases List.mem_append.mp he with h | h
      · exact ih e h
      · rcases List.mem_singleton.mp h with rfl
        show (1 : Nat) ≤ DEFAULT_RETRY_CONFIG.maxAttempts
        decide
    | ack mid cid _ ih =>
      intro e he
      exact ih e (List.mem_filter.mp he).1
    | clear _ _ => intro e he; exact absurd he (List.not_mem_nil e)
    | sweep now m _ ih => exact sweep_attempts_le _ now _ m ih
  · intro st cid url fid now
    rfl
  · intro cfg now m msgs mid hall
    exact sweep_max_dropped cfg now mid msgs m hall
  · intro cfg now m msgs s hs
    exact sweep_sends_ids cfg now msgs m s hs

/-- Witness for C3: a freshly recorded entry respects the bound. -/
theorem attempts_bounded_witness :
    ({ id := "m1", clientId := "c1", shortenedURL := "u", attempts := 1, lastAttempt := 0 }
      : PendingMessage).attempts ≤ DEFAULT_RETRY_CONFIG.maxAttempts :=
  attempts_bounded.1 _ (ReachableLedger.record "m1" "c1" "u" 0 ReachableLedger.nil) _
    (by simp)

/-- C8: `generateUniqueCode` succeeds on attempt n (returning that
probe's code) when the first n-1 existence probes collide and probe
n ≤ 10 is free; it returns the `URL003` error carrying `attempts = 10`
when every probe within the budget collides, and it errors in no other
case. -/
theorem generateUniqueCode_spec (gen : Nat → String) (ex : String → Bool) :
    (∀ n, 1 ≤ n → n ≤ GEN_MAX_ATTEMPTS →
      (∀ i, 1 ≤ i → i < n → ex (gen i) = true) → ex (gen n) = false →
      generateUniqueCode gen ex = Except.ok (gen n, n)) ∧
    ((∀ i, 1 ≤ i → i ≤ GEN_MAX_ATTEMPTS → ex (gen i) = true) →
      generateUniqueCode gen ex = Except.error ⟨"URL003", 500, GEN_MAX_ATTEMPTS⟩) ∧
    (∀ e, generateUniqueCode gen ex = Except.error e →
      e = ⟨"URL003", 500, GEN_MAX_ATTEMPTS⟩ ∧
      ∀ i, 1 ≤ i → i ≤ GEN_MAX_ATTEMPTS → ex (gen i) = true) := by
  refine ⟨?_, ?_, ?_⟩
  · intro n h1 h10 hall hfalse
    have h := genLoop_ok gen ex (n - 1) 1 GEN_MAX_ATTEMPTS
      (fun i hi1 hin => hall i hi1 (by omega))
      (by rw [show 1 + (n - 1) = n by omega]; exact hfalse)
      (by unfold GEN_MAX_ATTEMPTS at h10 ⊢; omega)
    rw [show 1 + (n - 1) = n by omega] at h
    exact h
  · intro hall
    exact genLoop_exhaust gen ex GEN_MAX_ATTEMPTS 1
      (fun i hi1 hin => hall i hi1 (by omega))
  · intro e he
    obtain ⟨h1, h2⟩ := genLoop_error gen ex GEN_MAX_ATTEMPTS 1 e he
    exact ⟨h1, fun i hi1 hin => h2 i hi1 (by omega)⟩

/-- Witness for C8: against a store whose `exists` always answers true,
generation exhausts the budget with the `URL003` error. -/
theorem generateUniqueCode_spec_witness :
    generateUniqueCode (fun i => toString i) (fun _ => true) =
      Except.error ⟨"URL003", 500, GEN_MAX_ATTEMPTS⟩ :=
  (generateUniqueCode_spec (fun i => toString i) (fun _ => true)).2.1
    (fun _ _ _ => rfl)

/-- C9: any sequence of sequential `shortenUrl` calls against one
storage service returns pairwise-distinct codes; every returned mapping
is present in the final store; and a single successful call's code was
absent from the store when generated and present immediately after the
call's `store`. -/
theorem shorten_codes_unique (gens : Nat → Nat → String) (baseUrl : String)
    (reqs : List (String × Nat)) (k : Nat) (s : UrlStorageService) :
    List.Pairwise (fun a b => a.code ≠ b.code) (shortenAll gens baseUrl k reqs s).1 ∧
    (∀ mp ∈ (shortenAll gens baseUrl k reqs s).1,
      (shortenAll gens baseUrl k reqs s).2.existsCode mp.code = true) ∧
    (∀ gen u t mp s', shortenUrl gen baseUrl u t s = Except.ok (mp, s') →
      s.existsCode mp.code = false ∧ s' = s.store mp ∧
      s'.existsCode mp.code = true) := by
  refine ⟨shortenAll_nodup gens baseUrl reqs k s, shortenAll_stored gens baseUrl reqs k s, ?_⟩
  intro gen u t mp s' h
  obtain ⟨h1, h2⟩ := shortenUrl_ok gen baseUrl u t s mp s' h
  exact ⟨h1, h2, by rw [h2]; exact (existsCode_store s mp mp.code).mpr (Or.inl rfl)⟩

/-- Witness for C9: one concrete call against the empty store generates
`"abc"`, finds it absent, and stores it. -/
theorem shorten_codes_unique_witness :
    (⟨[]⟩ : UrlStorageService).existsCode
      ({ code := "abc", originalUrl := "u", shortenedUrl := "b/abc", createdAt := 7 }
        : UrlMapping).code = false ∧
    (⟨[("abc", { code := "abc", originalUrl := "u", shortenedUrl := "b/abc", createdAt := 7 })]⟩
        : UrlStorageService) =
      UrlStorageService.store ⟨[]⟩
        { code := "abc", originalUrl := "u", shortenedUrl := "b/abc", createdAt := 7 } ∧
    (⟨[("abc", { code := "abc", originalUrl := "u", shortenedUrl := "b/abc", createdAt := 7 })]⟩
        : UrlStorageService).existsCode
      ({ code := "abc", originalUrl := "u", shortenedUrl := "b/abc", createdAt := 7 }
        : UrlMapping).code = true :=
  (shorten_codes_unique (fun _ _ => "abc") "b" [] 0 ⟨[]⟩).2.2
    (fun _ => "abc") "u" 7
    { code := "abc", originalUrl := "u", shortenedUrl := "b/abc", createdAt := 7 }
    ⟨[("abc", { code := "abc", originalUrl := "u", shortenedUrl := "b/abc", createdAt := 7 })]⟩
    rfl

/-- C1 counterexample: a sweep run immediately after the target channel
is gone (empty registry), with the entry's retry delay not yet elapsed
(`now = lastAttempt`), retains the entry instead of dropping it: the
source checks the retry delay before the channel-existence check. -/
theorem sweep_before_delay_keeps_entry :
    (processPendingMessages DEFAULT_RETRY_CONFIG 1000 ⟨[]⟩
      [{ id := "m1", clientId := "c1", shortenedURL := "u",
         attempts := 1, lastAttempt := 1000 }]).2.1 =
    [{ id := "m1", clientId := "c1", shortenedURL := "u",
       attempts := 1, lastAttempt := 1000 }] := by
  decide

/-- C1 (amended): an entry below the attempt budget whose channel fails
`hasClient` is handled by the sweep without attempting a send and
without throwing — but only once its retry delay has elapsed; a sweep
running before the delay keeps the entry unchanged, and once due the
entry is dropped with no send bearing its id. -/
theorem sweep_gone_channel (cfg : RetryConfig) (now : Nat) (m : MultiClientManager)
    (msgs : List PendingMessage) (e : PendingMessage)
    (he : e ∈ msgs)
    (hid : ∀ e' ∈ msgs, e'.id = e.id → e' = e)
    (hatt : e.attempts < cfg.maxAttempts)
    (hgone : m.hasClient e.clientId = false) :
    ((cfg.retryDelay : Int) ≤ (now : Int) - (e.lastAttempt : Int) →
      (∀ e' ∈ (processPendingMessages cfg now m msgs).2.1, e'.id ≠ e.id) ∧
      (∀ s ∈ (processPendingMessages cfg now m msgs).2.2, s.2 ≠ e.id)) ∧
    ((now : Int) - (e.lastAttempt : Int) < (cfg.retryDelay : Int) →
      e ∈ (processPendingMessages cfg now m msgs).2.1) := by
  constructor
  · intro hdue
    refine sweep_gone_dropped cfg now e.clientId e.id msgs m hgone ?_
    intro e' he' hid'
    rcases hid e' he' hid' with rfl
    exact ⟨rfl, hatt, hdue⟩
  · intro hnotdue
    exact sweep_keeps_not_due cfg now msgs m e he hatt hnotdue

/-- Witness for C1's amended theorem: one due entry targeting a channel
absent from an empty registry is dropped with no send attempted. -/
theorem sweep_gone_channel_witness :
    (∀ e' ∈ (processPendingMessages DEFAULT_RETRY_CONFIG 30000 ⟨[]⟩
        [{ id := "m1", clientId := "c1", shortenedURL := "u",
           attempts := 1, lastAttempt := 0 }]).2.1, e'.id ≠ "m1") ∧
    (∀ s ∈ (processPendingMessages DEFAULT_RETRY_CONFIG 30000 ⟨[]⟩
        [{ id := "m1", clientId := "c1", shortenedURL := "u",
           attempts := 1, lastAttempt := 0 }]).2.2, s.2 ≠ "m1") :=
  (sweep_gone_channel DEFAULT_RETRY_CONFIG 30000 ⟨[]⟩
    [{ id := "m1", clientId := "c1", shortenedURL := "u",
       attempts := 1, lastAttempt := 0 }]
    { id := "m1", clientId := "c1", shortenedURL := "u",
      attempts := 1, lastAttempt := 0 }
    (by decide) (by decide) (by decide) (by decide)).1 (by decide)

/-- C2 counterexample: a session bound to a registered OPEN client whose
transport send throws — `sendShortenedUrlToSession` returns `true`
although the first transport send failed, so its boolean does not equal
the transport send's success. -/
theorem deliver_true_despite_send_failure :
    (sendShortenedUrlToSession
      ⟨⟨[{ id := "c1", readyState := ReadyState.OPEN, sendThrows := true,
           connectedAt := 0, lastActivity := 0 }]⟩, [], [("s1", "c1")]⟩
      (some "s1") "http://x/abc" "m1" 5).value = true ∧
    (sendShortenedUrlToSession
      ⟨⟨[{ id := "c1", readyState := ReadyState.OPEN, sendThrows := true,
           connectedAt := 0, lastActivity := 0 }]⟩, [], [("s1", "c1")]⟩
      (some "s1") "http://x/abc" "m1" 5).sendAttempted = true ∧
    (sendShortenedUrlToSession
      ⟨⟨[{ id := "c1", readyState := ReadyState.OPEN, sendThrows := true,
           connectedAt := 0, lastActivity := 0 }]⟩, [], [("s1", "c1")]⟩
      (some "s1") "http://x/abc" "m1" 5).sendSucceeded = false := by
  decide

/-- C2 (amended): `sendShortenedUrlToSession` returns `false` without
throwing, with no send attempt and no ledger entry, whenever no channel
resolves (null session with no connected clients, an unknown session
id, or a resolved client failing `hasClient`); otherwise it generates a
fresh message identity, appends the ledger entry with `attempts = 1`,
attempts the first transport send, and returns `true` — its boolean
reports channel resolution, not the transport send's success, which is
only logged. -/
theorem deliver_resolution_spec (st : WSState) (sid : Option String)
    (url fid : String) (now : Nat) :
    (resolveClientId st sid = none →
      sendShortenedUrlToSession st sid url fid now =
        { value := false, sendAttempted := false, sendSucceeded := false, state := st }) ∧
    (∀ cid, resolveClientId st sid = some cid → st.manager.hasClient cid = false →
      sendShortenedUrlToSession st sid url fid now =
        { value := false, sendAttempted := false, sendSucceeded := false, state := st }) ∧
    (∀ cid, resolveClientId st sid = some cid → st.manager.hasClient cid = true →
      (sendShortenedUrlToSession st sid url fid now).value = true ∧
      (sendShortenedUrlToSession st sid url fid now).sendAttempted = true ∧
      (sendShortenedUrlToSession st sid url fid now).state.pending =
        st.pending ++ [{ id := fid, clientId := cid, shortenedURL := url,
                         attempts := 1, lastAttempt := now }] ∧
      (sendShortenedUrlToSession st sid url fid now).sendSucceeded =
        (st.manager.sendToClient cid now).1) := by
  refine ⟨?_, ?_, ?_⟩
  · intro h
    cases sid with
    | none =>
      cases hcl : st.manager.getAllClients with
      | nil => simp [sendShortenedUrlToSession, hcl]
      | cons c cs =>
        rw [resolveClientId, hcl] at h
        exact absurd h (by simp)
    | some s =>
      rw [resolveClientId] at h
      simp only [sendShortenedUrlToSession, h]
  · intro cid hres hhas
    cases sid with
    | none =>
      cases hcl : st.manager.getAllClients with
      | nil =>
        rw [resolveClientId, hcl] at hres
        exact absurd hres (by simp)
      | cons c cs =>
        rw [resolveClientId, hcl] at hres
        simp only [List.head?, Option.map_some] at hres
        obtain rfl : c.id = cid := by simpa using hres
        simp [sendShortenedUrlToSession, hcl, sendShortenedUrlToClient, hhas]
    | some s =>
      rw [resolveClientId] at hres
      simp only [sendShortenedUrlToSession, hres]
      simp [sendShortenedUrlToClient, hhas]
  · intro cid hres hhas
    have hclient : ∀ st' : WSState, st' = st →
        sendShortenedUrlToClient st' cid url fid now =
          { value := true, sendAttempted := true,
            sendSucceeded := (st.manager.sendToClient cid now).1,
            state := { st with
              manager := (st.manager.sendToClient cid now).2,
              pending := st.pending ++
                [{ id := fid, clientId := cid, shortenedURL := url,
                   attempts := 1, lastAttempt := now }] } } := by
      rintro st' rfl
      simp [sendShortenedUrlToClient, hhas, sendShortenedUrl]
    cases sid with
    | none =>
      cases hcl : st.manager.getAllClients with
      | nil =>
        rw [resolveClientId, hcl] at hres
        exact absurd hres (by simp)
      | cons c cs =>
        rw [resolveClientId, hcl] at hres
        simp only [List.head?, Option.map_some] at hres
        obtain rfl : c.id = cid := by simpa using hres
        simp only [sendShortenedUrlToSession, hcl, hclient st rfl]
        exact ⟨trivial, trivial, trivial, trivial⟩
    | some s =>
      rw [resolveClientId] at hres
      simp only [sendShortenedUrlToSession, hres, hclient st rfl]
      exact ⟨trivial, trivial, trivial, trivial⟩

/-- Witness for C2's amended theorem: a bound session whose client is
OPEN and whose transport send succeeds. -/
theorem deliver_resolution_spec_witness :
    (sendShortenedUrlToSession
      ⟨⟨[{ id := "c1", readyState := ReadyState.OPEN, sendThrows := false,
           connectedAt := 0, lastActivity := 0 }]⟩, [], [("s1", "c1")]⟩
      (some "s1") "u" "m1" 5).value = true ∧
    (sendShortenedUrlToSession
      ⟨⟨[{ id := "c1", readyState := ReadyState.OPEN, sendThrows := false,
           connectedAt := 0, lastActivity := 0 }]⟩, [], [("s1", "c1")]⟩
      (some "s1") "u" "m1" 5).sendAttempted = true ∧
    (sendShortenedUrlToSession
      ⟨⟨[{ id := "c1", readyState := ReadyState.OPEN, sendThrows := false,
           connectedAt := 0, lastActivity := 0 }]⟩, [], [("s1", "c1")]⟩
      (some "s1") "u" "m1" 5).state.pending =
      [] ++ [{ id := "m1", clientId := "c1", shortenedURL := "u",
               attempts := 1, lastAttempt := 5 }] ∧
    (sendShortenedUrlToSession
      ⟨⟨[{ id := "c1", readyState := ReadyState.OPEN, sendThrows := false,
           connectedAt := 0, lastActivity := 0 }]⟩, [], [("s1", "c1")]⟩
      (some "s1") "u" "m1" 5).sendSucceeded =
      (MultiClientManager.sendToClient
        ⟨[{ id := "c1", readyState := ReadyState.OPEN, sendThrows := false,
            connectedAt := 0, lastActivity := 0 }]⟩ "c1" 5).1 :=
  (deliver_resolution_spec
    ⟨⟨[{ id := "c1", readyState := ReadyState.OPEN, sendThrows := false,
         connectedAt := 0, lastActivity := 0 }]⟩, [], [("s1", "c1")]⟩
    (some "s1") "u" "m1" 5).2.2 "c1" (by decide) (by decide)

/-- C6 counterexample: sending to a registered client whose socket is
CLOSED returns `false` but leaves the channel registered — the non-OPEN
branch of `sendToClient` does not call `removeClient` (only the
throw branch does; a stale non-OPEN client is evicted later by the
heartbeat sweep, not here). -/
theorem send_not_open_keeps_client :
    (MultiClientManager.sendToClient
      ⟨[{ id := "c1", readyState := ReadyState.CLOSED, sendThrows := false,
          connectedAt := 0, lastActivity := 0 }]⟩ "c1" 5).1 = false ∧
    (MultiClientManager.sendToClient
      ⟨[{ id := "c1", readyState := ReadyState.CLOSED, sendThrows := false,
          connectedAt := 0, lastActivity := 0 }]⟩ "c1" 5).2.getClient "c1" =
      some { id := "c1", readyState := ReadyState.CLOSED, sendThrows := false,
             connectedAt := 0, lastActivity := 0 } := by
  decide

/-- C6 (amended): `sendToClient` returns `false` for an absent client or
a non-sendable (non-OPEN) transport, leaving the registry unchanged in
those cases; it returns `false` and unregisters the channel only when
the transport-level send throws (the exception is swallowed, never
propagated); and it returns `true` exactly when the send on an OPEN
socket succeeded. -/
theorem sendToClient_spec (m : MultiClientManager) (cid : String) (now : Nat) :
    (m.getClient cid = none → m.sendToClient cid now = (false, m)) ∧
    (∀ c, m.getClient cid = some c → c.readyState ≠ ReadyState.OPEN →
      m.sendToClient cid now = (false, m)) ∧
    (∀ c, m.getClient cid = some c → c.readyState = ReadyState.OPEN →
      c.sendThrows = true →
      m.sendToClient cid now = (false, m.removeClient cid)) ∧
    (∀ c, m.getClient cid = some c → c.readyState = ReadyState.OPEN →
      c.sendThrows = false →
      m.sendToClient cid now = (true, m.updateClientActivity cid now)) ∧
    ((m.sendToClient cid now).1 = true ↔
      ∃ c, m.getClient cid = some c ∧ c.readyState = ReadyState.OPEN ∧
        c.sendThrows = false) := by
  refine ⟨?_, ?_, ?_, ?_, ?_⟩
  · intro h
    simp [MultiClientManager.sendToClient, h]
  · intro c hc hno
    simp [MultiClientManager.sendToClient, hc, hno]
  · intro c hc hopen hthrow
    simp [MultiClientManager.sendToClient, hc, hopen, hthrow]
  · intro c hc hopen hthrow
    simp [MultiClientManager.sendToClient, hc, hopen, hthrow]
  · unfold MultiClientManager.sendToClient
    cases hc : m.getClient cid with
    | none => simp
    | some c =>
      dsimp only
      by_cases hopen : c.readyState = ReadyState.OPEN
      · rw [if_neg (by simp [hopen])]
        by_cases hthrow : c.sendThrows
        · rw [if_pos hthrow]
          constructor
          · intro h
            exact absurd h (by simp)
          · rintro ⟨c', hc', _, ht'⟩
            cases hc'
            rw [hthrow] at ht'
            exact absurd ht' (by simp)
        · rw [if_neg hthrow]
          constructor
          · intro _
            exact ⟨c, rfl, hopen, by simpa using hthrow⟩
          · intro _
            rfl
      · rw [if_pos (by simp [hopen])]
        constructor
        · intro h
          exact absurd h (by simp)
        · rintro ⟨c', hc', ho', _⟩
          cases hc'
          exact absurd ho' hopen

/-- Witness for C6's amended theorem: a registered OPEN client whose
transport send throws is unregistered and the call reports failure. -/
theorem sendToClient_spec_witness :
    MultiClientManager.sendToClient
      ⟨[{ id := "c1", readyState := ReadyState.OPEN, sendThrows := true,
          connectedAt := 0, lastActivity := 0 }]⟩ "c1" 5 =
      (false, MultiClientManager.removeClient
        ⟨[{ id := "c1", readyState := ReadyState.OPEN, sendThrows := true,
            connectedAt := 0, lastActivity := 0 }]⟩ "c1") :=
  (sendToClient_spec
    ⟨[{ id := "c1", readyState := ReadyState.OPEN, sendThrows := true,
        connectedAt := 0, lastActivity := 0 }]⟩ "c1" 5).2.2.1
    { id := "c1", readyState := ReadyState.OPEN, sendThrows := true,
      connectedAt := 0, lastActivity := 0 }
    (by decide) (by decide) (by decide)

end MB
